import Mathlib

/-!
Verification development for the automotive watchdog / VHAL client core:
the pending-request pool and its GetSetValueClient caller
(cpp/vhal/client/src/AidlVhalClient.cpp), the watchdog client registry
(cpp/watchdog/server/src/WatchdogProcessService.h), and the I/O overuse
configuration store (cpp/watchdog/server, exercised by
tests/IoOveruseConfigsTest.cpp).
-/

/- ===================== PendingRequestPool ===================== -/

/-- A pending request held by the pool: its request id and absolute deadline.
Modelled from the spec: the PendingRequestPool implementation itself is not
among the provided sources (only its caller GetSetValueClient in
AidlVhalClient.cpp is), so the pool state and its operations are modelled
from the specification of addRequests, tryFinishRequests, the timeout sweep
and shutdown. -/
structure PoolEntry where
  requestId : Int
  deadline : Nat
  deriving DecidableEq

/-- The pool state: the map from request id to deadline, as a list of
entries. -/
structure PoolState where
  pending : List PoolEntry
  deriving DecidableEq

def emptyPool : PoolState := ⟨[]⟩

/-- The request ids currently pending in the pool. -/
def pendingIds (s : PoolState) : List Int := s.pending.map PoolEntry.requestId

/-- Modelled from the spec: addRequests registers the given ids with
deadline now + pool timeout; if any id is already pending the call fails
and the pool is unchanged. -/
def addRequests (timeoutInNs : Nat) (now : Nat) (ids : List Int) (s : PoolState) : PoolState :=
  if ids.any (fun i => decide (i ∈ pendingIds s)) then s
  else ⟨s.pending ++ ids.map (fun i => ⟨i, now + timeoutInNs⟩)⟩

/-- Modelled from the spec: tryFinishRequests atomically removes and returns
the subset of the given ids that are still pending; ids already removed are
silently excluded. -/
def tryFinishRequests (ids : List Int) (s : PoolState) : List Int × PoolState :=
  ((s.pending.filter (fun e => decide (e.requestId ∈ ids))).map PoolEntry.requestId,
   ⟨s.pending.filter (fun e => !decide (e.requestId ∈ ids))⟩)

/-- Modelled from the spec: the timer-driven sweep removes every request
whose deadline has expired and reports it for timeout-callback
invocation. -/
def sweepExpired (now : Nat) (s : PoolState) : List Int × PoolState :=
  ((s.pending.filter (fun e => decide (e.deadline ≤ now))).map PoolEntry.requestId,
   ⟨s.pending.filter (fun e => !decide (e.deadline ≤ now))⟩)

/-- One externally triggered pool event: a batch of additions, an explicit
finish, or a timer-driven timeout sweep. -/
inductive PoolOp where
  | add (now : Nat) (ids : List Int)
  | finish (ids : List Int)
  | sweep (now : Nat)
  deriving DecidableEq

/-- All request ids submitted through add operations of a trace. -/
def addedIds : List PoolOp → List Int
  | [] => []
  | PoolOp.add _ ids :: rest => ids ++ addedIds rest
  | PoolOp.finish _ :: rest => addedIds rest
  | PoolOp.sweep _ :: rest => addedIds rest

/-- Runs a trace of pool operations, returning the final pool state, the
ids consumed by explicit finishes, and the ids handed to timeout
callbacks by sweeps. -/
def runPool (timeoutInNs : Nat) : PoolState → List PoolOp → PoolState × List Int × List Int
  | s, [] => (s, [], [])
  | s, PoolOp.add now ids :: rest => runPool timeoutInNs (addRequests timeoutInNs now ids s) rest
  | s, PoolOp.finish ids :: rest =>
      let fr := tryFinishRequests ids s
      let r := runPool timeoutInNs fr.2 rest
      (r.1, fr.1 ++ r.2.1, r.2.2)
  | s, PoolOp.sweep now :: rest =>
      let sw := sweepExpired now s
      let r := runPool timeoutInNs sw.2 rest
      (r.1, r.2.1, sw.1 ++ r.2.2)

/-- Observations of a complete pool lifetime: the trace runs from the empty
pool and pool shutdown finally expires every still-pending request as a
timeout, per the spec and the GetSetValueClient destructor comment. -/
def poolOutcomes (timeoutInNs : Nat) (ops : List PoolOp) : List Int × List Int :=
  let r := runPool timeoutInNs emptyPool ops
  (r.2.1, r.2.2 ++ pendingIds r.1)

/- ===== GetSetValueClient layer (from AidlVhalClient.cpp) ===== -/

/-- The bookkeeping entry for one outstanding get/set request
(PendingGetValueRequest / PendingSetValueRequest in AidlVhalClient.cpp,
with the client callback abstracted to its identifying payload). -/
structure PendingValueRequest where
  propId : Int
  areaId : Int
  deriving DecidableEq

/-- State of a GetSetValueClient: the pending-request pool plus the map
from request id to bookkeeping entry (mPendingGetValueCallbacks or
mPendingSetValueCallbacks). -/
structure GetSetClientState where
  pool : PoolState
  callbacks : List (Int × PendingValueRequest)
  deriving DecidableEq

/-- GetSetValueClient::tryFinishRequest from AidlVhalClient.cpp: first asks
the pool to finish the request; when the pool no longer holds it, returns
none; otherwise consumes the bookkeeping entry from the callback map and
returns it. -/
def GetSetValueClient.tryFinishRequest (requestId : Int) (st : GetSetClientState) :
    Option PendingValueRequest × GetSetClientState :=
  let fr := tryFinishRequests [requestId] st.pool
  if fr.1.isEmpty then (none, ⟨fr.2, st.callbacks⟩)
  else
    match st.callbacks.find? (fun p => p.1 == requestId) with
    | none => (none, ⟨fr.2, st.callbacks⟩)
    | some p => (some p.2, ⟨fr.2, st.callbacks.filter (fun q => !(q.1 == requestId))⟩)

/-- GetSetValueClient::onTimeout from AidlVhalClient.cpp: for each timed-out
request id, consumes the bookkeeping entry if still present and reports it
(the TRY_AGAIN error callback); ids without an entry are ignored. -/
def GetSetValueClient.onTimeout (requestIds : List Int) (st : GetSetClientState) :
    List PendingValueRequest × GetSetClientState :=
  ((st.callbacks.filter (fun p => decide (p.1 ∈ requestIds))).map Prod.snd,
   ⟨st.pool, st.callbacks.filter (fun p => !decide (p.1 ∈ requestIds))⟩)

/- ===================== IoOveruseConfigs ===================== -/

/-- Component ownership type of a package or config
(android.automotive.watchdog.internal.ComponentType). -/
inductive ComponentType where
  | system
  | vendor
  | thirdParty
  deriving DecidableEq

/-- Application category (android.automotive.watchdog.internal
ApplicationCategoryType). -/
inductive ApplicationCategoryType where
  | others
  | maps
  | media
  deriving DecidableEq

/-- Uid ownership type of a package
(android.automotive.watchdog.internal.UidType). -/
inductive UidType where
  | application
  | native
  deriving DecidableEq

/-- Byte write limits for the three power states. -/
structure PerStateBytes where
  foregroundBytes : Int
  backgroundBytes : Int
  garageModeBytes : Int
  deriving DecidableEq

/-- A named per-state threshold: the name is a component name, package name,
or application category name depending on where it is used. -/
structure PerStateIoOveruseThreshold where
  name : String
  perStateWriteBytes : PerStateBytes
  deriving DecidableEq

/-- A system-wide alert threshold: duration vs written-bytes pair. -/
structure IoOveruseAlertThreshold where
  durationInSeconds : Int
  writtenBytesPerSecond : Int
  deriving DecidableEq

/-- A package to application-category mapping entry. -/
structure PackageMetadata where
  packageName : String
  appCategoryType : ApplicationCategoryType
  deriving DecidableEq

/-- The I/O resource-specific section of a resource overuse config. -/
structure IoOveruseConfiguration where
  componentLevelThresholds : PerStateIoOveruseThreshold
  packageSpecificThresholds : List PerStateIoOveruseThreshold
  categorySpecificThresholds : List PerStateIoOveruseThreshold
  systemWideThresholds : List IoOveruseAlertThreshold
  deriving DecidableEq

/-- One source configuration supplied to update, per component type. -/
structure ResourceOveruseConfiguration where
  componentType : ComponentType
  safeToKillPackages : List String
  vendorPackagePrefixes : List String
  packageMetadata : List PackageMetadata
  resourceSpecificConfigurations : List IoOveruseConfiguration
  deriving DecidableEq

/-- A queried package: name, uid type, owning component, app category. -/
structure PackageInfo where
  packageName : String
  uidType : UidType
  componentType : ComponentType
  appCategoryType : ApplicationCategoryType
  deriving DecidableEq

/-- Parses a category-specific threshold name into a category; unknown names
map to others and are ignored when building the category map. -/
def toApplicationCategoryType (s : String) : ApplicationCategoryType :=
  if s == "MAPS" then ApplicationCategoryType.maps
  else if s == "MEDIA" then ApplicationCategoryType.media
  else ApplicationCategoryType.others

/- ===== association-list helpers used by the stored state ===== -/

/-- Inserts key k with value v into an association list, replacing any
existing binding of k (so a later insert of the same key wins). -/
def insertReplace {α β : Type} [DecidableEq α] (m : List (α × β)) (k : α) (v : β) :
    List (α × β) :=
  m.filter (fun p => !decide (p.1 = k)) ++ [(k, v)]

/-- Looks up the value bound to key k in an association list. -/
def lookupAssoc {α β : Type} [DecidableEq α] (m : List (α × β)) (k : α) : Option β :=
  (m.find? (fun p => decide (p.1 = k))).map Prod.snd

/-- Builds an association map from a list of entries via a partial key
extractor; entries without a key are skipped, and a later entry for the
same key replaces an earlier one (last occurrence wins). -/
def buildKeyedMap {α β γ : Type} [DecidableEq α] (keyOf : γ → Option α) (valOf : γ → β)
    (l : List γ) : List (α × β) :=
  l.foldl (fun m t => match keyOf t with
    | none => m
    | some k => insertReplace m k (valOf t)) []

/-- The stored per-package threshold map of a component: keyed by package
name, last occurrence in the supplied list wins. -/
def buildThresholdMap (l : List PerStateIoOveruseThreshold) : List (String × PerStateBytes) :=
  buildKeyedMap (fun t => some t.name) PerStateIoOveruseThreshold.perStateWriteBytes l

/-- Key of a category-specific threshold entry: none when the name is not a
known category. -/
def categoryKey (t : PerStateIoOveruseThreshold) : Option ApplicationCategoryType :=
  match toApplicationCategoryType t.name with
  | ApplicationCategoryType.others => none
  | c => some c

/-- The stored category threshold map: keyed by parsed category, last
occurrence wins, unknown category names skipped. -/
def buildCategoryMap (l : List PerStateIoOveruseThreshold) :
    List (ApplicationCategoryType × PerStateBytes) :=
  buildKeyedMap categoryKey PerStateIoOveruseThreshold.perStateWriteBytes l

/-- The stored system-wide alert threshold set: entries are keyed by
duration and an entry whose duration is already present is dropped (first
occurrence wins). -/
def buildAlertSet (l : List IoOveruseAlertThreshold) : List IoOveruseAlertThreshold :=
  l.foldl (fun acc t =>
    if acc.any (fun u => u.durationInSeconds == t.durationInSeconds) then acc
    else acc ++ [t]) []

/-- Merges package metadata into the stored package-to-category map; the
most recently applied source wins on a per-package conflict. -/
def mergeMetadata (m : List (String × ApplicationCategoryType))
    (metas : List PackageMetadata) : List (String × ApplicationCategoryType) :=
  metas.foldl (fun acc md => insertReplace acc md.packageName md.appCategoryType) m

/-- Accumulates vendor package prefixes: prefixes from a new update are
appended to the existing set rather than replacing it. -/
def addPrefixes (cur : List String) (ps : List String) : List String :=
  ps.foldl (fun l p => if p ∈ l then l else l ++ [p]) cur

/- ===== stored state ===== -/

/-- Stored per-component configuration. Modelled from the spec: the
IoOveruseConfigs implementation is not among the provided sources (only its
tests are), so the store is modelled from the specification of update,
fetchThreshold, isSafeToKill and the accessors. -/
structure ComponentSpecificConfig where
  componentLevelThreshold : PerStateBytes
  packageSpecificThresholds : List (String × PerStateBytes)
  safeToKillPackages : List String
  deriving DecidableEq

/-- The full IoOveruseConfigs store state. Modelled from the spec:
category-specific thresholds are retained only from the Vendor source and
system-wide alert thresholds only from the System source; package metadata
is merged across all sources; vendor prefixes accumulate. -/
structure IoOveruseConfigsState where
  systemConfig : Option ComponentSpecificConfig
  vendorConfig : Option ComponentSpecificConfig
  thirdPartyConfig : Option ComponentSpecificConfig
  categorySpecificThresholds : List (ApplicationCategoryType × PerStateBytes)
  alertThresholds : List IoOveruseAlertThreshold
  vendorPackagePrefixes : List String
  packagesToAppCategories : List (String × ApplicationCategoryType)
  deriving DecidableEq

/-- The store before any successful update. -/
def initialState : IoOveruseConfigsState :=
  ⟨none, none, none, [], [], [], []⟩

/-- The process-wide built-in default threshold returned when no component,
package, or category match exists; its numeric value is immaterial to the
verified properties. -/
def defaultThreshold : PerStateBytes := ⟨3072, 2048, 4096⟩

def componentConfigOf (s : IoOveruseConfigsState) : ComponentType → Option ComponentSpecificConfig
  | ComponentType.system => s.systemConfig
  | ComponentType.vendor => s.vendorConfig
  | ComponentType.thirdParty => s.thirdPartyConfig

/- ===== update ===== -/

/-- Validation failure taxonomy of update, in first-violation order. -/
inductive UpdateError where
  | duplicateComponentConfig
  | invalidResourceSection
  | invalidThreshold
  | categoryMappingConflict
  deriving DecidableEq

/-- The single I/O resource-specific section of a source config; none when
the section is missing or duplicated. -/
def getIoOveruseConfiguration (c : ResourceOveruseConfiguration) : Option IoOveruseConfiguration :=
  match c.resourceSpecificConfigurations with
  | [io] => some io
  | _ => none

/-- Positivity invariant on a component-level threshold. -/
def isValidPerStateBytes (b : PerStateBytes) : Bool :=
  (0 < b.foregroundBytes : Bool) && (0 < b.backgroundBytes : Bool)
    && (0 < b.garageModeBytes : Bool)

/-- Positivity invariant on a system-wide alert threshold. -/
def isValidAlertThreshold (t : IoOveruseAlertThreshold) : Bool :=
  (0 < t.durationInSeconds : Bool) && (0 < t.writtenBytesPerSecond : Bool)

/-- Threshold positivity check of a single source config (the resource
section is checked separately). -/
def validThresholds (c : ResourceOveruseConfiguration) : Bool :=
  match getIoOveruseConfiguration c with
  | none => true
  | some io =>
    isValidPerStateBytes io.componentLevelThresholds.perStateWriteBytes
      && io.systemWideThresholds.all isValidAlertThreshold

/-- Detects two source configs for the same component type in one batch. -/
def hasDuplicateComponent : List ResourceOveruseConfiguration → Bool
  | [] => false
  | c :: rest =>
    rest.any (fun d => decide (d.componentType = c.componentType)) || hasDuplicateComponent rest

/-- All package metadata supplied by a batch. -/
def batchMetadata (cfgs : List ResourceOveruseConfiguration) : List PackageMetadata :=
  cfgs.foldr (fun c acc => c.packageMetadata ++ acc) []

/-- Detects a package mapped to two different categories among the supplied
metadata entries. -/
def hasCategoryCollision (metas : List PackageMetadata) : Bool :=
  metas.any (fun m => metas.any (fun n =>
    decide (m.packageName = n.packageName) && decide (m.appCategoryType ≠ n.appCategoryType)))

/-- Derives the stored component config from a source config, per the
updatable-field rules of the spec. -/
def componentSpecificOf (c : ResourceOveruseConfiguration) (io : IoOveruseConfiguration) :
    ComponentSpecificConfig where
  componentLevelThreshold := io.componentLevelThresholds.perStateWriteBytes
  packageSpecificThresholds := buildThresholdMap io.packageSpecificThresholds
  safeToKillPackages := c.safeToKillPackages

/-- Applies one validated source config to the store. Modelled from the
spec: System may not set vendor prefixes or category thresholds (dropped);
Vendor may not set alert thresholds (dropped); Third-party keeps only its
component-level threshold. -/
def applyConfig (s : IoOveruseConfigsState) (c : ResourceOveruseConfiguration) :
    IoOveruseConfigsState :=
  match getIoOveruseConfiguration c with
  | none => s
  | some io =>
    match c.componentType with
    | ComponentType.system =>
      { s with
        systemConfig := some (componentSpecificOf c io)
        alertThresholds := buildAlertSet io.systemWideThresholds
        packagesToAppCategories := mergeMetadata s.packagesToAppCategories c.packageMetadata }
    | ComponentType.vendor =>
      { s with
        vendorConfig := some (componentSpecificOf c io)
        categorySpecificThresholds := buildCategoryMap io.categorySpecificThresholds
        vendorPackagePrefixes := addPrefixes s.vendorPackagePrefixes c.vendorPackagePrefixes
        packagesToAppCategories := mergeMetadata s.packagesToAppCategories c.packageMetadata }
    | ComponentType.thirdParty =>
      { s with
        thirdPartyConfig :=
          some ⟨io.componentLevelThresholds.perStateWriteBytes, [], []⟩ }

/-- IoOveruseConfigs::update. Modelled from the spec: the whole batch is
validated first — duplicate component, missing or duplicated resource
section, threshold positivity, package-to-category mapping collisions —
and only on success are the configs applied, so a failed update leaves the
store untouched. -/
def update (s : IoOveruseConfigsState) (cfgs : List ResourceOveruseConfiguration) :
    Except UpdateError IoOveruseConfigsState :=
  if hasDuplicateComponent cfgs then Except.error UpdateError.duplicateComponentConfig
  else if cfgs.any (fun c => (getIoOveruseConfiguration c).isNone) then
    Except.error UpdateError.invalidResourceSection
  else if !cfgs.all validThresholds then Except.error UpdateError.invalidThreshold
  else if hasCategoryCollision (batchMetadata cfgs) then
    Except.error UpdateError.categoryMappingConflict
  else Except.ok (cfgs.foldl applyConfig s)

/-- The caller-visible effect of update: the new store on success, the old
store unchanged on error. -/
def applyUpdate (s : IoOveruseConfigsState) (cfgs : List ResourceOveruseConfiguration) :
    IoOveruseConfigsState × Bool :=
  match update s cfgs with
  | Except.ok s2 => (s2, true)
  | Except.error _ => (s, false)

/- ===== queries ===== -/

/-- The package-specific threshold for the queried package, when one is
stored for its component. -/
def packageSpecificThresholdFor (s : IoOveruseConfigsState) (pkg : PackageInfo) :
    Option PerStateBytes :=
  (componentConfigOf s pkg.componentType).bind
    (fun cc => lookupAssoc cc.packageSpecificThresholds pkg.packageName)

/-- The category-specific threshold for the queried package's category. -/
def categoryThresholdFor (s : IoOveruseConfigsState) (pkg : PackageInfo) :
    Option PerStateBytes :=
  lookupAssoc s.categorySpecificThresholds pkg.appCategoryType

/-- The component-level threshold of the queried package's component. -/
def componentLevelThresholdFor (s : IoOveruseConfigsState) (pkg : PackageInfo) :
    Option PerStateBytes :=
  (componentConfigOf s pkg.componentType).map ComponentSpecificConfig.componentLevelThreshold

/-- IoOveruseConfigs::fetchThreshold. Modelled from the spec: resolves the
queried package's threshold in priority order. -/
def fetchThreshold (s : IoOveruseConfigsState) (pkg : PackageInfo) : PerStateBytes :=
  match componentConfigOf s pkg.componentType with
  | some cc =>
    match lookupAssoc cc.packageSpecificThresholds pkg.packageName with
    | some t => t
    | none =>
      match lookupAssoc s.categorySpecificThresholds pkg.appCategoryType with
      | some t => t
      | none => cc.componentLevelThreshold
  | none =>
    match lookupAssoc s.categorySpecificThresholds pkg.appCategoryType with
    | some t => t
    | none => defaultThreshold

/-- The resolution order transcribed from the spec: package-specific wins
over category-specific wins over component-level wins over the built-in
default. -/
def resolveThresholdSpec (s : IoOveruseConfigsState) (pkg : PackageInfo) : PerStateBytes :=
  ((packageSpecificThresholdFor s pkg).orElse (fun _ =>
    (categoryThresholdFor s pkg).orElse (fun _ =>
      componentLevelThresholdFor s pkg))).getD defaultThreshold

/-- Explicit membership of the queried package in its component's
safe-to-kill list. -/
def inSafeToKillList (s : IoOveruseConfigsState) (pkg : PackageInfo) : Bool :=
  match componentConfigOf s pkg.componentType with
  | some cc => decide (pkg.packageName ∈ cc.safeToKillPackages)
  | none => false

/-- IoOveruseConfigs::isSafeToKill. Modelled from the spec: Native-uid
packages are never safe to kill; otherwise explicit membership wins, and
absent membership System and Vendor default to not-safe while Third-party
defaults to safe. -/
def isSafeToKill (s : IoOveruseConfigsState) (pkg : PackageInfo) : Bool :=
  if pkg.uidType = UidType.native then false
  else if inSafeToKillList s pkg then true
  else decide (pkg.componentType = ComponentType.thirdParty)

/-- Accessor over the merged state: the accumulated vendor package
prefixes. -/
def vendorPackagePrefixesOf (s : IoOveruseConfigsState) : List String :=
  s.vendorPackagePrefixes

/-- Accessor over the merged state: the stored system-wide alert
thresholds. -/
def systemWideAlertThresholdsOf (s : IoOveruseConfigsState) : List IoOveruseAlertThreshold :=
  s.alertThresholds

/- ===================== WatchdogProcessService registry ===================== -/

/-- Heartbeat timeout tier (TimeoutLength in WatchdogProcessService.h). -/
inductive TimeoutLength where
  | critical
  | moderate
  | normal
  deriving DecidableEq

/-- One registered client: identity, tier bucket, allocated session id.
Modelled from the spec: the WatchdogProcessService implementation is not
among the provided sources (only its header is), so the registry operations
are modelled from the specification of register and unregister. -/
structure ClientEntry where
  clientId : Int
  timeout : TimeoutLength
  sessionId : Int
  deriving DecidableEq

/-- The registry: tier-bucketed clients, tier-agnostic mediators, at most
one monitor, and the session-id allocator. -/
structure RegistryState where
  clients : List ClientEntry
  mediators : List (Int × Int)
  monitor : Option Int
  lastSessionId : Int
  deriving DecidableEq

/-- Status of a registry operation. -/
inductive RegStatus where
  | ok
  | alreadyExists
  deriving DecidableEq

/-- Modelled from the spec: registerClient rejects an identity that is
already registered; otherwise stores it with a freshly allocated session
id. -/
def registerClient (clientId : Int) (t : TimeoutLength) (s : RegistryState) :
    RegStatus × RegistryState :=
  if s.clients.any (fun c => decide (c.clientId = clientId)) then (RegStatus.alreadyExists, s)
  else
    (RegStatus.ok,
     { s with
       clients := s.clients ++ [⟨clientId, t, s.lastSessionId + 1⟩]
       lastSessionId := s.lastSessionId + 1 })

/-- Modelled from the spec: registerMediator rejects an identity that is
already registered as a mediator. -/
def registerMediator (medId : Int) (s : RegistryState) : RegStatus × RegistryState :=
  if s.mediators.any (fun m => decide (m.1 = medId)) then (RegStatus.alreadyExists, s)
  else
    (RegStatus.ok,
     { s with
       mediators := s.mediators ++ [(medId, s.lastSessionId + 1)]
       lastSessionId := s.lastSessionId + 1 })

/-- Modelled from the spec: registerMonitor replaces any previous
monitor. -/
def registerMonitor (monId : Int) (s : RegistryState) : RegStatus × RegistryState :=
  (RegStatus.ok, { s with monitor := some monId })

/-- Modelled from the spec: unregisterClient is a no-op success when the
identity is not registered. -/
def unregisterClient (clientId : Int) (s : RegistryState) : RegStatus × RegistryState :=
  (RegStatus.ok, { s with clients := s.clients.filter (fun c => !decide (c.clientId = clientId)) })

/-- Modelled from the spec: unregisterMediator is a no-op success when the
identity is not registered. -/
def unregisterMediator (medId : Int) (s : RegistryState) : RegStatus × RegistryState :=
  (RegStatus.ok, { s with mediators := s.mediators.filter (fun m => !decide (m.1 = medId)) })

/-- Modelled from the spec: unregisterMonitor is a no-op success when the
identity is not the registered monitor. -/
def unregisterMonitor (monId : Int) (s : RegistryState) : RegStatus × RegistryState :=
  (RegStatus.ok,
   { s with monitor := if s.monitor = some monId then none else s.monitor })

/- ===================== sample configurations ===================== -/

/-- Builder mirroring the test utility of the same name. -/
def toPerStateIoOveruseThreshold (nm : String) (f b g : Int) : PerStateIoOveruseThreshold :=
  ⟨nm, ⟨f, b, g⟩⟩

/-- Builder mirroring the test utility of the same name. -/
def toIoOveruseAlertThreshold (d w : Int) : IoOveruseAlertThreshold := ⟨d, w⟩

/-- Builder mirroring the test utility of the same name. -/
def toPackageMetadata (nm : String) (c : ApplicationCategoryType) : PackageMetadata := ⟨nm, c⟩

/-- Builder mirroring the test utility of the same name. -/
def constructIoOveruseConfig (cl : PerStateIoOveruseThreshold)
    (ps cs : List PerStateIoOveruseThreshold) (sw : List IoOveruseAlertThreshold) :
    IoOveruseConfiguration := ⟨cl, ps, cs, sw⟩

/-- Builder mirroring the test utility of the same name; the config carries
exactly one I/O resource-specific section. -/
def constructResourceOveruseConfig (ct : ComponentType) (stk vp : List String)
    (pm : List PackageMetadata) (io : IoOveruseConfiguration) :
    ResourceOveruseConfiguration := ⟨ct, stk, vp, pm, [io]⟩

/-- The sample System update config of IoOveruseConfigsTest.cpp. -/
def sampleUpdateSystemConfig : ResourceOveruseConfiguration :=
  constructResourceOveruseConfig ComponentType.system ["systemPackageA"] []
    [toPackageMetadata "systemPackageA" ApplicationCategoryType.media,
     toPackageMetadata "vendorPkgB" ApplicationCategoryType.maps]
    (constructIoOveruseConfig (toPerStateIoOveruseThreshold "SYSTEM" 200 100 500)
      [toPerStateIoOveruseThreshold "systemPackageA" 600 400 1000,
       toPerStateIoOveruseThreshold "systemPackageB" 1200 800 1500]
      []
      [toIoOveruseAlertThreshold 5 200, toIoOveruseAlertThreshold 30 40000])

/-- The sample Vendor update config of IoOveruseConfigsTest.cpp. -/
def sampleUpdateVendorConfig : ResourceOveruseConfiguration :=
  constructResourceOveruseConfig ComponentType.vendor ["vendorPackageA"] ["vendorPackage"]
    [toPackageMetadata "systemPackageA" ApplicationCategoryType.media,
     toPackageMetadata "vendorPkgB" ApplicationCategoryType.maps]
    (constructIoOveruseConfig (toPerStateIoOveruseThreshold "VENDOR" 100 50 900)
      [toPerStateIoOveruseThreshold "vendorPackageA" 800 300 500,
       toPerStateIoOveruseThreshold "vendorPkgB" 1600 600 1000]
      [toPerStateIoOveruseThreshold "MAPS" 700 900 1300,
       toPerStateIoOveruseThreshold "MEDIA" 1800 1900 2100]
      [])

/-- The sample Third-party update config of IoOveruseConfigsTest.cpp. -/
def sampleUpdateThirdPartyConfig : ResourceOveruseConfiguration :=
  constructResourceOveruseConfig ComponentType.thirdParty [] [] []
    (constructIoOveruseConfig (toPerStateIoOveruseThreshold "THIRD_PARTY" 300 150 1900) [] [] [])

/-- A Third-party config carrying every droppable field, mirroring
TestIgnoresNonUpdatableConfigsByThirdPartyComponent. -/
def sampleThirdPartyFullIo : IoOveruseConfiguration :=
  constructIoOveruseConfig (toPerStateIoOveruseThreshold "THIRD_PARTY" 300 150 1900)
    [toPerStateIoOveruseThreshold "vendorPackageA" 800 300 500]
    [toPerStateIoOveruseThreshold "MAPS" 700 900 1300]
    [toIoOveruseAlertThreshold 5 200]

def sampleThirdPartyFullConfig : ResourceOveruseConfiguration :=
  constructResourceOveruseConfig ComponentType.thirdParty
    ["vendorPackageA", "systemPackageB"] ["vendorPackage"] [] sampleThirdPartyFullIo

/-- A Vendor config mapping pkgA to MEDIA, for the mapping-conflict
scenario. -/
def conflictVendorConfig : ResourceOveruseConfiguration :=
  constructResourceOveruseConfig ComponentType.vendor [] ["vendorPackage"]
    [toPackageMetadata "pkgA" ApplicationCategoryType.media]
    (constructIoOveruseConfig (toPerStateIoOveruseThreshold "VENDOR" 100 50 900) [] [] [])

/-- A System config mapping pkgA to MAPS, for the mapping-conflict
scenario. -/
def conflictSystemConfig : ResourceOveruseConfiguration :=
  constructResourceOveruseConfig ComponentType.system [] []
    [toPackageMetadata "pkgA" ApplicationCategoryType.maps]
    (constructIoOveruseConfig (toPerStateIoOveruseThreshold "SYSTEM" 200 100 500) [] [] [])

/-- A second Vendor config supplying a different prefix set, for the
prefix-accumulation scenario. -/
def vendorPrefixConfigB : ResourceOveruseConfiguration :=
  constructResourceOveruseConfig ComponentType.vendor [] ["vendorPkg"] []
    (constructIoOveruseConfig (toPerStateIoOveruseThreshold "VENDOR" 10 90 300) [] [] [])

/-- A System config with duplicate package-specific entries for the same
package and duplicate alert thresholds with the same duration, mirroring
the second update of TestUpdateWithValidConfigs. -/
def duplicateEntrySystemIo : IoOveruseConfiguration :=
  constructIoOveruseConfig (toPerStateIoOveruseThreshold "SYSTEM" 300 400 600)
    [toPerStateIoOveruseThreshold "systemPackageC" 700 100 200,
     toPerStateIoOveruseThreshold "systemPackageC" 300 200 300]
    []
    [toIoOveruseAlertThreshold 6 4, toIoOveruseAlertThreshold 6 10]

def duplicateEntrySystemConfig : ResourceOveruseConfiguration :=
  constructResourceOveruseConfig ComponentType.system ["systemPackageC"] [] []
    duplicateEntrySystemIo


/- ===================== claim-level definitions ===================== -/

/-- An update batch violating a validation rule, transcribed from the
claim: more than one config for the same component type, a missing or
duplicated resource-specific section, a threshold failing the positivity
invariant, or a colliding package-to-category mapping. -/
def violatesUpdateValidation (cfgs : List ResourceOveruseConfiguration) : Prop :=
  (¬ (cfgs.map (fun c => c.componentType)).Nodup) ∨
  (∃ c ∈ cfgs, getIoOveruseConfiguration c = none) ∨
  (∃ c ∈ cfgs, validThresholds c = false) ∨
  (∃ m ∈ batchMetadata cfgs, ∃ n ∈ batchMetadata cfgs,
    m.packageName = n.packageName ∧ m.appCategoryType ≠ n.appCategoryType)

/- ===================== Pool lemmas ===================== -/

lemma count_map_filter_partition (l : List PoolEntry) (q : PoolEntry → Bool) (id : Int) :
    ((l.filter q).map PoolEntry.requestId).count id
      + ((l.filter (fun e => !q e)).map PoolEntry.requestId).count id
      = (l.map PoolEntry.requestId).count id := by
  induction l with
  | nil => simp
  | cons e l ih =>
    by_cases hq : q e <;>
      simp [hq, List.count_cons, ih] <;> omega

lemma map_filter_sublist (l : List PoolEntry) (q : PoolEntry → Bool) :
    List.Sublist ((l.filter q).map PoolEntry.requestId) (l.map PoolEntry.requestId) :=
  List.Sublist.map _ (List.filter_sublist l)

lemma runPool_count (timeoutInNs : Nat) (id : Int) :
    ∀ (ops : List PoolOp) (s : PoolState),
      (pendingIds s ++ addedIds ops).Nodup →
      (pendingIds (runPool timeoutInNs s ops).1).count id
        + ((runPool timeoutInNs s ops).2.1).count id
        + ((runPool timeoutInNs s ops).2.2).count id
      = (pendingIds s ++ addedIds ops).count id := by
  intro ops
  induction ops with
  | nil =>
    intro s h
    simp [runPool, addedIds]
  | cons op rest ih =>
    intro s h
    cases op with
    | add now ids =>
      have hadd : addedIds (PoolOp.add now ids :: rest) = ids ++ addedIds rest := rfl
      rw [hadd] at h
      have hdisj : ∀ i ∈ ids, i ∉ pendingIds s := by
        intro i hi hmem
        have h2 := (List.nodup_append.mp h).2.2
        exact h2 hmem (List.mem_append.mpr (Or.inl hi))
      have hguard : (ids.any (fun i => decide (i ∈ pendingIds s))) = false := by
        simp only [List.any_eq_false, decide_eq_true_eq]
        intro i hi
        simpa using hdisj i hi
      have hstep : addRequests timeoutInNs now ids s
          = ⟨s.pending ++ ids.map (fun i => ⟨i, now + timeoutInNs⟩)⟩ := by
        simp [addRequests, hguard]
      have hpend : pendingIds (addRequests timeoutInNs now ids s) = pendingIds s ++ ids := by
        rw [hstep]
        simp [pendingIds, Function.comp_def]
      have hrun : runPool timeoutInNs s (PoolOp.add now ids :: rest)
          = runPool timeoutInNs (addRequests timeoutInNs now ids s) rest := rfl
      rw [hrun, hadd]
      have hN : (pendingIds (addRequests timeoutInNs now ids s) ++ addedIds rest).Nodup := by
        rw [hpend, List.append_assoc]
        simpa [List.append_assoc] using h
      have hih := ih (addRequests timeoutInNs now ids s) hN
      rw [hih, hpend]
      simp only [List.count_append]
      omega
    | finish ids =>
      have hrest : addedIds (PoolOp.finish ids :: rest) = addedIds rest := rfl
      rw [hrest] at h ⊢
      have hsub : List.Sublist (pendingIds (tryFinishRequests ids s).2) (pendingIds s) := by
        simpa [tryFinishRequests, pendingIds] using
          map_filter_sublist s.pending (fun e => !decide (e.requestId ∈ ids))
      have hN : (pendingIds (tryFinishRequests ids s).2 ++ addedIds rest).Nodup :=
        List.Nodup.sublist (hsub.append_right (addedIds rest)) h
      have hih := ih (tryFinishRequests ids s).2 hN
      have hpart := count_map_filter_partition s.pending
        (fun e => decide (e.requestId ∈ ids)) id
      have hrun : runPool timeoutInNs s (PoolOp.finish ids :: rest)
          = (let fr := tryFinishRequests ids s
             let r := runPool timeoutInNs fr.2 rest
             (r.1, fr.1 ++ r.2.1, r.2.2)) := rfl
      rw [hrun]
      simp only [List.count_append] at hih ⊢
      simp only [tryFinishRequests, pendingIds] at hih hpart ⊢
      omega
    | sweep now =>
      have hrest : addedIds (PoolOp.sweep now :: rest) = addedIds rest := rfl
      rw [hrest] at h ⊢
      have hsub : List.Sublist (pendingIds (sweepExpired now s).2) (pendingIds s) := by
        simpa [sweepExpired, pendingIds] using
          map_filter_sublist s.pending (fun e => !decide (e.deadline ≤ now))
      have hN : (pendingIds (sweepExpired now s).2 ++ addedIds rest).Nodup :=
        List.Nodup.sublist (hsub.append_right (addedIds rest)) h
      have hih := ih (sweepExpired now s).2 hN
      have hpart := count_map_filter_partition s.pending
        (fun e => decide (e.deadline ≤ now)) id
      have hrun : runPool timeoutInNs s (PoolOp.sweep now :: rest)
          = (let sw := sweepExpired now s
             let r := runPool timeoutInNs sw.2 rest
             (r.1, r.2.1, sw.1 ++ r.2.2)) := rfl
      rw [hrun]
      simp only [List.count_append] at hih ⊢
      simp only [sweepExpired, pendingIds] at hih hpart ⊢
      omega

/- ===================== C1 and C2 ===================== -/

/-- C1: for every request id added to the pending-request pool, across any
sequence of responses, timeout sweeps, and pool shutdown, exactly one of
explicit finish and timeout-callback invocation is ever observed for that
id — never both and never neither. Request ids are process-wide fresh
(monotonically increasing, never reused), captured by the Nodup
hypothesis. -/
theorem pendingRequest_exactly_one_outcome (timeoutInNs : Nat) (ops : List PoolOp) (id : Int)
    (hN : (addedIds ops).Nodup) (hA : (addedIds ops).count id = 1) :
    ((poolOutcomes timeoutInNs ops).1).count id
      + ((poolOutcomes timeoutInNs ops).2).count id = 1 := by
  have h := runPool_count timeoutInNs id ops emptyPool
    (by simpa [emptyPool, pendingIds] using hN)
  simp only [poolOutcomes, emptyPool, pendingIds, List.map_nil, List.nil_append,
    List.count_append, List.count_nil] at h ⊢
  omega

/-- Witness for C1 at a concrete trace: id 1 is added, finished explicitly,
and id 2 times out at shutdown; id 1 sees exactly one outcome. -/
theorem pendingRequest_exactly_one_outcome_witness :
    ((poolOutcomes 5 [PoolOp.add 0 [1, 2], PoolOp.finish [1]]).1).count 1
      + ((poolOutcomes 5 [PoolOp.add 0 [1, 2], PoolOp.finish [1]]).2).count 1 = 1 :=
  pendingRequest_exactly_one_outcome 5 [PoolOp.add 0 [1, 2], PoolOp.finish [1]] 1
    (by decide) (by decide)

/-- C2: tryFinishRequests removes and returns exactly the subset of the
given ids that are still pending; ids already removed are silently
excluded, so a second finish of the same ids is a no-op returning the
empty set — also at the GetSetValueClient::tryFinishRequest layer, where
the second call returns none. -/
theorem tryFinishRequests_exact_subset (ids : List Int) (s : PoolState) :
    (∀ i, i ∈ (tryFinishRequests ids s).1 ↔ i ∈ ids ∧ i ∈ pendingIds s) ∧
    (∀ i, i ∈ pendingIds (tryFinishRequests ids s).2 ↔ i ∈ pendingIds s ∧ i ∉ ids) ∧
    (tryFinishRequests ids (tryFinishRequests ids s).2).1 = [] ∧
    (∀ (requestId : Int) (st : GetSetClientState),
      (GetSetValueClient.tryFinishRequest requestId
        (GetSetValueClient.tryFinishRequest requestId st).2).1 = none) := by
  refine ⟨?_, ?_, ?_, ?_⟩
  · intro i
    simp only [tryFinishRequests, List.mem_map, List.mem_filter, decide_eq_true_eq, pendingIds]
    aesop
  · intro i
    simp only [tryFinishRequests, pendingIds, List.mem_map, List.mem_filter,
      Bool.not_eq_true', decide_eq_false_iff_not]
    aesop
  · simp [tryFinishRequests, List.filter_filter]
  · intro requestId st
    have hpend : ∀ e ∈ (tryFinishRequests [requestId] st.pool).2.pending,
        (e.requestId ∈ ([requestId] : List Int)) = False := by
      intro e he
      simp only [tryFinishRequests, List.mem_filter, Bool.not_eq_true,
        decide_eq_false_iff_not] at he
      simpa using he.2
    unfold GetSetValueClient.tryFinishRequest
    by_cases h1 : (tryFinishRequests [requestId] st.pool).1.isEmpty
    · simp only [h1, if_true]
      have : (tryFinishRequests [requestId]
          (⟨(tryFinishRequests [requestId] st.pool).2, st.callbacks⟩ : GetSetClientState).pool).1
          = [] := by
        simp [tryFinishRequests, List.filter_filter]
      simp [this, tryFinishRequests, List.filter_filter]
    · simp only [h1, if_false]
      cases hfind : st.callbacks.find? (fun p => p.1 == requestId) with
      | none =>
        simp [tryFinishRequests, List.filter_filter]
      | some p =>
        simp [tryFinishRequests, List.filter_filter]

/- ===================== store lemmas ===================== -/

lemma find?_append_eq {α : Type} (p : α → Bool) (l1 l2 : List α) :
    (l1 ++ l2).find? p = (l1.find? p).orElse (fun _ => l2.find? p) := by
  induction l1 with
  | nil => simp
  | cons a l ih =>
    by_cases hp : p a <;> simp [List.find?_cons, hp, ih]

lemma map_fst_filter_sublist {α γ : Type} (f : α → γ) (l : List α) (q : α → Bool) :
    List.Sublist ((l.filter q).map f) (l.map f) :=
  List.Sublist.map f (List.filter_sublist l)

lemma lookupAssoc_insertReplace_self {α β : Type} [DecidableEq α]
    (m : List (α × β)) (k : α) (v : β) :
    lookupAssoc (insertReplace m k v) k = some v := by
  unfold insertReplace lookupAssoc
  rw [find?_append_eq]
  have hnone : (m.filter (fun p => !decide (p.1 = k))).find? (fun p => decide (p.1 = k))
      = none := by
    rw [List.find?_eq_none]
    intro p hp
    have h2 := (List.mem_filter.mp hp).2
    simpa using h2
  simp [hnone, List.find?_cons]

lemma lookupAssoc_insertReplace_ne {α β : Type} [DecidableEq α]
    (m : List (α × β)) (k2 k : α) (v : β) (h : k ≠ k2) :
    lookupAssoc (insertReplace m k2 v) k = lookupAssoc m k := by
  unfold insertReplace lookupAssoc
  rw [find?_append_eq]
  have hfilter : (m.filter (fun p => !decide (p.1 = k2))).find? (fun p => decide (p.1 = k))
      = m.find? (fun p => decide (p.1 = k)) := by
    induction m with
    | nil => rfl
    | cons p m ih =>
      by_cases h1 : p.1 = k
      · have h2 : ¬ p.1 = k2 := by rw [h1]; exact h
        simp [List.filter_cons, h1, h2, List.find?_cons, h]
      · by_cases h2 : p.1 = k2
        · simp [List.filter_cons, h2, h1, ih, List.find?_cons, Ne.symm h]
        · simp [List.filter_cons, h2, List.find?_cons, h1, ih]
  rw [hfilter]
  cases hf : m.find? (fun p => decide (p.1 = k)) with
  | some p => simp
  | none =>
    have hk2 : (decide (((k2, v) : α × β).1 = k)) = false := by
      simp
      exact fun e => h e.symm
    simp [List.find?_cons, hk2]

lemma lookupAssoc_foldl_keyed {α β γ : Type} [DecidableEq α]
    (keyOf : γ → Option α) (valOf : γ → β) (k : α) :
    ∀ (l : List γ) (init : List (α × β)),
      lookupAssoc (l.foldl (fun m t => match keyOf t with
          | none => m
          | some k2 => insertReplace m k2 (valOf t)) init) k
      = (match l.reverse.find? (fun t => decide (keyOf t = some k)) with
         | some t => some (valOf t)
         | none => lookupAssoc init k) := by
  intro l
  induction l with
  | nil => intro init; simp
  | cons t l ih =>
    intro init
    rw [List.foldl_cons, ih, List.reverse_cons, find?_append_eq]
    cases hf : l.reverse.find? (fun u => decide (keyOf u = some k)) with
    | some u => simp
    | none =>
      by_cases hk : keyOf t = some k
      · simp [Option.none_orElse, List.find?_cons, hk, lookupAssoc_insertReplace_self]
      · cases hko : keyOf t with
        | none =>
          rw [hko] at hk
          simp [List.find?_cons, hk, hko]
        | some k2 =>
          rw [hko] at hk
          have hne : k ≠ k2 := by
            intro e
            exact hk (by rw [e])
          simp [List.find?_cons, hk, hko, lookupAssoc_insertReplace_ne _ _ _ _ hne]

lemma keys_insertReplace_nodup {α β : Type} [DecidableEq α]
    (m : List (α × β)) (k : α) (v : β) (h : (m.map Prod.fst).Nodup) :
    ((insertReplace m k v).map Prod.fst).Nodup := by
  unfold insertReplace
  rw [List.map_append]
  refine List.Nodup.append ?_ ?_ ?_
  · exact List.Nodup.sublist
      (map_fst_filter_sublist Prod.fst m (fun p => !decide (p.1 = k))) h
  · simp
  · intro x hx hxk
    have hxk2 : x = k := by simpa using hxk
    rcases List.mem_map.mp hx with ⟨p, hp, rfl⟩
    have h2 := (List.mem_filter.mp hp).2
    simp at h2
    exact h2 hxk2

lemma keys_foldl_keyed_nodup {α β γ : Type} [DecidableEq α]
    (keyOf : γ → Option α) (valOf : γ → β) :
    ∀ (l : List γ) (init : List (α × β)), (init.map Prod.fst).Nodup →
      ((l.foldl (fun m t => match keyOf t with
          | none => m
          | some k2 => insertReplace m k2 (valOf t)) init).map Prod.fst).Nodup := by
  intro l
  induction l with
  | nil => intro init h; simpa using h
  | cons t l ih =>
    intro init h
    rw [List.foldl_cons]
    cases hko : keyOf t with
    | none => simpa [hko] using ih init h
    | some k2 =>
      simpa [hko] using ih (insertReplace init k2 (valOf t))
        (keys_insertReplace_nodup init k2 (valOf t) h)

lemma find?_buildAlertSet_aux (d : Int) :
    ∀ (l init : List IoOveruseAlertThreshold),
      ((l.foldl (fun acc t =>
          if acc.any (fun u => u.durationInSeconds == t.durationInSeconds) then acc
          else acc ++ [t]) init).find? (fun t => t.durationInSeconds == d))
      = (init.find? (fun t => t.durationInSeconds == d)).orElse
          (fun _ => l.find? (fun t => t.durationInSeconds == d)) := by
  intro l
  induction l with
  | nil =>
    intro init
    cases hf : init.find? (fun t => t.durationInSeconds == d) <;> simp [hf]
  | cons t l ih =>
    intro init
    rw [List.foldl_cons, ih]
    by_cases hin : init.any (fun u => u.durationInSeconds == t.durationInSeconds)
    · simp only [hin, if_true]
      cases hf : init.find? (fun u => u.durationInSeconds == d) with
      | some u => simp
      | none =>
        have hne : (t.durationInSeconds == d) = false := by
          rcases List.any_eq_true.mp hin with ⟨u, hu, hud⟩
          have h1 : u.durationInSeconds = t.durationInSeconds := by simpa using hud
          by_contra hc
          have h2 : t.durationInSeconds = d := by
            have := Bool.of_not_eq_false hc
            simpa using this
          have h3 := List.find?_eq_none.mp hf u hu
          simp [h1, h2] at h3
        simp [List.find?_cons, hne]
    · have hin2 : (init.any (fun u => u.durationInSeconds == t.durationInSeconds)) = false :=
        Bool.of_not_eq_true hin
      simp only [hin2, Bool.false_eq_true, if_false]
      rw [find?_append_eq]
      cases hf : init.find? (fun u => u.durationInSeconds == d) with
      | some u => simp
      | none =>
        by_cases ht : (t.durationInSeconds == d) = true <;>
          simp [List.find?_cons, ht]

lemma pairwise_buildAlertSet_aux :
    ∀ (l init : List IoOveruseAlertThreshold),
      init.Pairwise (fun a b => a.durationInSeconds ≠ b.durationInSeconds) →
      (l.foldl (fun acc t =>
          if acc.any (fun u => u.durationInSeconds == t.durationInSeconds) then acc
          else acc ++ [t]) init).Pairwise
        (fun a b => a.durationInSeconds ≠ b.durationInSeconds) := by
  intro l
  induction l with
  | nil => intro init h; simpa using h
  | cons t l ih =>
    intro init h
    rw [List.foldl_cons]
    by_cases hin : init.any (fun u => u.durationInSeconds == t.durationInSeconds)
    · simpa [hin] using ih init h
    · have hin2 : (init.any (fun u => u.durationInSeconds == t.durationInSeconds)) = false :=
        Bool.of_not_eq_true hin
      simp only [hin2, Bool.false_eq_true, if_false]
      refine ih (init ++ [t]) ?_
      rw [List.pairwise_append]
      refine ⟨h, by simp, ?_⟩
      intro a ha b hb
      have hb2 : b = t := by simpa using hb
      subst hb2
      have := List.any_eq_false.mp hin2 a ha
      simpa using this

lemma mem_addPrefixes (x : String) :
    ∀ (ps cur : List String), x ∈ addPrefixes cur ps ↔ x ∈ cur ∨ x ∈ ps := by
  intro ps
  induction ps with
  | nil => intro cur; simp [addPrefixes]
  | cons p ps ih =>
    intro cur
    unfold addPrefixes
    rw [List.foldl_cons]
    by_cases hc : p ∈ cur
    · simp only [hc, if_true]
      have := ih cur
      unfold addPrefixes at this
      rw [this]
      constructor
      · rintro (h | h)
        · exact Or.inl h
        · exact Or.inr (List.mem_cons.mpr (Or.inr h))
      · rintro (h | h)
        · exact Or.inl h
        · rcases List.mem_cons.mp h with rfl | h2
          · exact Or.inl hc
          · exact Or.inr h2
    · simp only [hc, if_false]
      have := ih (cur ++ [p])
      unfold addPrefixes at this
      rw [this]
      simp [List.mem_append, List.mem_cons]
      tauto

lemma update_ok_inv (s : IoOveruseConfigsState) (cfgs : List ResourceOveruseConfiguration)
    (s2 : IoOveruseConfigsState) (h : update s cfgs = Except.ok s2) :
    hasDuplicateComponent cfgs = false ∧
    (cfgs.any (fun c => (getIoOveruseConfiguration c).isNone)) = false ∧
    cfgs.all validThresholds = true ∧
    hasCategoryCollision (batchMetadata cfgs) = false ∧
    s2 = cfgs.foldl applyConfig s := by
  unfold update at h
  by_cases h1 : hasDuplicateComponent cfgs
  · simp [h1] at h
  · by_cases h2 : cfgs.any (fun c => (getIoOveruseConfiguration c).isNone)
    · simp [h1, h2] at h
    · by_cases h3 : cfgs.all validThresholds
      · by_cases h4 : hasCategoryCollision (batchMetadata cfgs)
        · simp [h1, h2, h3, h4] at h
        · simp only [h1, h2, h3, h4, Bool.false_eq_true, if_false, Bool.not_true,
            Except.ok.injEq] at h
          exact ⟨Bool.of_not_eq_true h1, Bool.of_not_eq_true h2, h3,
            Bool.of_not_eq_true h4, h.symm⟩
      · simp [h1, h2, h3] at h

/- ===================== claim-level lemmas ===================== -/

lemma hasDuplicateComponent_eq_false_iff (cfgs : List ResourceOveruseConfiguration) :
    hasDuplicateComponent cfgs = false ↔
      (cfgs.map (fun c => c.componentType)).Nodup := by
  induction cfgs with
  | nil => simp [hasDuplicateComponent]
  | cons c rest ih =>
    simp only [hasDuplicateComponent, Bool.or_eq_false_iff, List.any_eq_false,
      decide_eq_false_iff_not, List.map_cons, List.nodup_cons, List.mem_map, ih]
    aesop

lemma hasCategoryCollision_true_of (metas : List PackageMetadata) (m n : PackageMetadata)
    (hm : m ∈ metas) (hn : n ∈ metas) (h1 : m.packageName = n.packageName)
    (h2 : m.appCategoryType ≠ n.appCategoryType) :
    hasCategoryCollision metas = true := by
  unfold hasCategoryCollision
  rw [List.any_eq_true]
  refine ⟨m, hm, ?_⟩
  rw [List.any_eq_true]
  exact ⟨n, hn, by simp [h1, h2]⟩

lemma mem_batchMetadata (cfgs : List ResourceOveruseConfiguration)
    (c : ResourceOveruseConfiguration) (m : PackageMetadata)
    (hc : c ∈ cfgs) (hm : m ∈ c.packageMetadata) :
    m ∈ batchMetadata cfgs := by
  induction cfgs with
  | nil => cases hc
  | cons d rest ih =>
    unfold batchMetadata
    rw [List.foldr_cons]
    rcases List.mem_cons.mp hc with rfl | h2
    · exact List.mem_append.mpr (Or.inl hm)
    · refine List.mem_append.mpr (Or.inr ?_)
      unfold batchMetadata at ih
      exact ih h2

lemma update_single_ok (s : IoOveruseConfigsState) (c : ResourceOveruseConfiguration)
    (io : IoOveruseConfiguration) (hio : getIoOveruseConfiguration c = some io)
    (hv : validThresholds c = true)
    (hnc : hasCategoryCollision c.packageMetadata = false) :
    update s [c] = Except.ok (applyConfig s c) := by
  unfold update
  have h1 : hasDuplicateComponent [c] = false := by
    simp [hasDuplicateComponent]
  have h2 : ([c].any (fun d => (getIoOveruseConfiguration d).isNone)) = false := by
    simp [hio]
  have h3 : [c].all validThresholds = true := by simp [hv]
  have h4 : hasCategoryCollision (batchMetadata [c]) = false := by
    have hb : batchMetadata [c] = c.packageMetadata := by
      simp [batchMetadata]
    rw [hb]
    exact hnc
  simp [h1, h2, h3, h4]

lemma lookupAssoc_buildKeyedMap {α β γ : Type} [DecidableEq α]
    (keyOf : γ → Option α) (valOf : γ → β) (l : List γ) (k : α) :
    lookupAssoc (buildKeyedMap keyOf valOf l) k
      = (l.reverse.find? (fun t => decide (keyOf t = some k))).map valOf := by
  unfold buildKeyedMap
  rw [lookupAssoc_foldl_keyed]
  cases hf : l.reverse.find? (fun t => decide (keyOf t = some k)) <;> simp [lookupAssoc]

lemma keys_buildKeyedMap_nodup {α β γ : Type} [DecidableEq α]
    (keyOf : γ → Option α) (valOf : γ → β) (l : List γ) :
    ((buildKeyedMap keyOf valOf l).map Prod.fst).Nodup := by
  unfold buildKeyedMap
  exact keys_foldl_keyed_nodup keyOf valOf l [] (by simp)

lemma lookupAssoc_buildThresholdMap (l : List PerStateIoOveruseThreshold) (k : String) :
    lookupAssoc (buildThresholdMap l) k
      = (l.reverse.find? (fun t => decide (t.name = k))).map
          PerStateIoOveruseThreshold.perStateWriteBytes := by
  unfold buildThresholdMap
  rw [lookupAssoc_buildKeyedMap]
  simp only [Option.some.injEq]

lemma lookupAssoc_buildCategoryMap (l : List PerStateIoOveruseThreshold)
    (cat : ApplicationCategoryType) :
    lookupAssoc (buildCategoryMap l) cat
      = (l.reverse.find? (fun t => decide (categoryKey t = some cat))).map
          PerStateIoOveruseThreshold.perStateWriteBytes := by
  unfold buildCategoryMap
  rw [lookupAssoc_buildKeyedMap]

lemma keys_buildThresholdMap_nodup (l : List PerStateIoOveruseThreshold) :
    ((buildThresholdMap l).map Prod.fst).Nodup := by
  unfold buildThresholdMap
  exact keys_buildKeyedMap_nodup _ _ l

lemma keys_buildCategoryMap_nodup (l : List PerStateIoOveruseThreshold) :
    ((buildCategoryMap l).map Prod.fst).Nodup := by
  unfold buildCategoryMap
  exact keys_buildKeyedMap_nodup _ _ l

lemma find?_buildAlertSet (l : List IoOveruseAlertThreshold) (d : Int) :
    (buildAlertSet l).find? (fun t => t.durationInSeconds == d)
      = l.find? (fun t => t.durationInSeconds == d) := by
  unfold buildAlertSet
  rw [find?_buildAlertSet_aux]
  simp

lemma pairwise_buildAlertSet (l : List IoOveruseAlertThreshold) :
    (buildAlertSet l).Pairwise (fun a b => a.durationInSeconds ≠ b.durationInSeconds) := by
  unfold buildAlertSet
  exact pairwise_buildAlertSet_aux l [] (by simp)

/- ===================== C3 ===================== -/

/-- C3: for every current store state and every update input that violates
a validation rule, update returns an error and the store state is exactly
what it was before the call — no partial mutation. -/
theorem update_error_leaves_state_unchanged (s : IoOveruseConfigsState)
    (cfgs : List ResourceOveruseConfiguration) (h : violatesUpdateValidation cfgs) :
    applyUpdate s cfgs = (s, false) := by
  unfold applyUpdate
  cases hu : update s cfgs with
  | error e => rfl
  | ok s2 =>
    exfalso
    obtain ⟨h1, h2, h3, h4, _⟩ := update_ok_inv s cfgs s2 hu
    rcases h with hdup | hsec | hth | hcol
    · exact hdup ((hasDuplicateComponent_eq_false_iff cfgs).mp h1)
    · rcases hsec with ⟨c, hc, hnone⟩
      have hfalse := List.any_eq_false.mp h2 c hc
      simp [hnone] at hfalse
    · rcases hth with ⟨c, hc, hvf⟩
      have htrue := List.all_eq_true.mp h3 c hc
      rw [hvf] at htrue
      cases htrue
    · rcases hcol with ⟨m, hm, n, hn, hname, hcat⟩
      have hc := hasCategoryCollision_true_of (batchMetadata cfgs) m n hm hn hname hcat
      rw [hc] at h4
      cases h4

/-- Witness for C3: a batch with two Third-party configs is rejected and
the store is untouched. -/
theorem update_error_leaves_state_unchanged_witness :
    violatesUpdateValidation [sampleUpdateThirdPartyConfig, sampleUpdateThirdPartyConfig] ∧
    applyUpdate initialState [sampleUpdateThirdPartyConfig, sampleUpdateThirdPartyConfig]
      = (initialState, false) :=
  ⟨by unfold violatesUpdateValidation; decide,
   update_error_leaves_state_unchanged initialState
     [sampleUpdateThirdPartyConfig, sampleUpdateThirdPartyConfig]
     (by unfold violatesUpdateValidation; decide)⟩

/- ===================== C4 ===================== -/

/-- C4: fetchThreshold resolves in the fixed priority order
package-specific, then category-specific, then component-level, then the
process-wide built-in default; before any successful update it returns the
built-in default for every package. -/
theorem fetchThreshold_priority_order (s : IoOveruseConfigsState) (pkg : PackageInfo) :
    fetchThreshold s pkg = resolveThresholdSpec s pkg ∧
    fetchThreshold initialState pkg = defaultThreshold := by
  constructor
  · unfold fetchThreshold resolveThresholdSpec packageSpecificThresholdFor
      categoryThresholdFor componentLevelThresholdFor
    cases hc : componentConfigOf s pkg.componentType with
    | none =>
      simp only [hc]
      cases hcat : lookupAssoc s.categorySpecificThresholds pkg.appCategoryType <;>
        simp [hcat]
    | some cc =>
      simp only [hc]
      cases hp : lookupAssoc cc.packageSpecificThresholds pkg.packageName with
      | some t => simp [hp]
      | none =>
        cases hcat : lookupAssoc s.categorySpecificThresholds pkg.appCategoryType <;>
          simp [hp, hcat]
  · unfold fetchThreshold initialState componentConfigOf
    cases pkg.componentType <;> simp [lookupAssoc]

/- ===================== C5 ===================== -/

/-- C5: Native-uid packages are never safe to kill regardless of component
type or explicit membership; for non-Native packages explicit membership in
the component's safe-to-kill set yields true, and absent membership the
result is false for System and Vendor and true for Third-party. -/
theorem isSafeToKill_policy (s : IoOveruseConfigsState) (pkg : PackageInfo) :
    (pkg.uidType = UidType.native → isSafeToKill s pkg = false) ∧
    (pkg.uidType ≠ UidType.native → inSafeToKillList s pkg = true →
      isSafeToKill s pkg = true) ∧
    (pkg.uidType ≠ UidType.native → inSafeToKillList s pkg = false →
      isSafeToKill s pkg = decide (pkg.componentType = ComponentType.thirdParty)) := by
  refine ⟨?_, ?_, ?_⟩
  · intro h1
    simp [isSafeToKill, h1]
  · intro h1 h2
    simp [isSafeToKill, h1, h2]
  · intro h1 h2
    simp [isSafeToKill, h1, h2]

/-- Witness for C5: a Native-uid package of the System component is not
safe to kill. -/
theorem isSafeToKill_policy_witness :
    isSafeToKill initialState
      ⟨"native package", UidType.native, ComponentType.system,
        ApplicationCategoryType.others⟩ = false :=
  (isSafeToKill_policy initialState
    ⟨"native package", UidType.native, ComponentType.system,
      ApplicationCategoryType.others⟩).1 rfl

/- ===================== C6 ===================== -/

/-- C6: for every otherwise-valid update, fields a component role may not
set are silently dropped from the stored config instead of failing the
update: a System config's category-specific thresholds and vendor
package-prefixes are dropped, a Vendor config's system-wide alert
thresholds are dropped, and a Third-party config keeps only its
component-level threshold. -/
theorem update_drops_non_updatable_fields (s : IoOveruseConfigsState)
    (c : ResourceOveruseConfiguration) (io : IoOveruseConfiguration)
    (hio : getIoOveruseConfiguration c = some io)
    (hv : validThresholds c = true)
    (hnc : hasCategoryCollision c.packageMetadata = false) :
    ∃ s2, update s [c] = Except.ok s2 ∧
      (c.componentType = ComponentType.system →
        s2.systemConfig = some (componentSpecificOf c io) ∧
        s2.alertThresholds = buildAlertSet io.systemWideThresholds ∧
        s2.categorySpecificThresholds = s.categorySpecificThresholds ∧
        s2.vendorPackagePrefixes = s.vendorPackagePrefixes) ∧
      (c.componentType = ComponentType.vendor →
        s2.vendorConfig = some (componentSpecificOf c io) ∧
        s2.alertThresholds = s.alertThresholds) ∧
      (c.componentType = ComponentType.thirdParty →
        s2.thirdPartyConfig = some ⟨io.componentLevelThresholds.perStateWriteBytes, [], []⟩ ∧
        s2.systemConfig = s.systemConfig ∧
        s2.vendorConfig = s.vendorConfig ∧
        s2.categorySpecificThresholds = s.categorySpecificThresholds ∧
        s2.alertThresholds = s.alertThresholds ∧
        s2.vendorPackagePrefixes = s.vendorPackagePrefixes ∧
        s2.packagesToAppCategories = s.packagesToAppCategories) := by
  have hfold : [c].foldl applyConfig s = applyConfig s c := by
    simp
  refine ⟨applyConfig s c, ?_, ?_, ?_, ?_⟩
  · rw [update_single_ok s c io hio hv hnc]
  · intro hct
    simp [applyConfig, hio, hct]
  · intro hct
    simp [applyConfig, hio, hct]
  · intro hct
    simp [applyConfig, hio, hct]

/-- Witness for C6: a Third-party config carrying package-specific,
category-specific, safe-to-kill, prefix, and alert fields updates
successfully and only its component-level threshold is stored. -/
theorem update_drops_non_updatable_fields_witness :
    ∃ s2, update initialState [sampleThirdPartyFullConfig] = Except.ok s2 ∧
      (sampleThirdPartyFullConfig.componentType = ComponentType.system →
        s2.systemConfig
            = some (componentSpecificOf sampleThirdPartyFullConfig sampleThirdPartyFullIo) ∧
        s2.alertThresholds = buildAlertSet sampleThirdPartyFullIo.systemWideThresholds ∧
        s2.categorySpecificThresholds = initialState.categorySpecificThresholds ∧
        s2.vendorPackagePrefixes = initialState.vendorPackagePrefixes) ∧
      (sampleThirdPartyFullConfig.componentType = ComponentType.vendor →
        s2.vendorConfig
            = some (componentSpecificOf sampleThirdPartyFullConfig sampleThirdPartyFullIo) ∧
        s2.alertThresholds = initialState.alertThresholds) ∧
      (sampleThirdPartyFullConfig.componentType = ComponentType.thirdParty →
        s2.thirdPartyConfig = some
          ⟨sampleThirdPartyFullIo.componentLevelThresholds.perStateWriteBytes, [], []⟩ ∧
        s2.systemConfig = initialState.systemConfig ∧
        s2.vendorConfig = initialState.vendorConfig ∧
        s2.categorySpecificThresholds = initialState.categorySpecificThresholds ∧
        s2.alertThresholds = initialState.alertThresholds ∧
        s2.vendorPackagePrefixes = initialState.vendorPackagePrefixes ∧
        s2.packagesToAppCategories = initialState.packagesToAppCategories) :=
  update_drops_non_updatable_fields initialState sampleThirdPartyFullConfig
    sampleThirdPartyFullIo rfl rfl rfl

/- ===================== C7 ===================== -/

/-- C7: if one source config in a batch maps a package to one category and
another config in the same batch maps the same package to a different
category, the whole update fails with a mapping-conflict error and no
state is mutated. -/
theorem update_fails_on_cross_config_category_conflict (s : IoOveruseConfigsState)
    (cfgs : List ResourceOveruseConfiguration) (c1 c2 : ResourceOveruseConfiguration)
    (m1 m2 : PackageMetadata) (h1 : c1 ∈ cfgs) (h2 : c2 ∈ cfgs)
    (hm1 : m1 ∈ c1.packageMetadata) (hm2 : m2 ∈ c2.packageMetadata)
    (hname : m1.packageName = m2.packageName)
    (hcat : m1.appCategoryType ≠ m2.appCategoryType) :
    applyUpdate s cfgs = (s, false) := by
  unfold applyUpdate
  cases hu : update s cfgs with
  | error e => rfl
  | ok s2 =>
    exfalso
    obtain ⟨_, _, _, h4, _⟩ := update_ok_inv s cfgs s2 hu
    have hc := hasCategoryCollision_true_of (batchMetadata cfgs) m1 m2
      (mem_batchMetadata cfgs c1 m1 h1 hm1) (mem_batchMetadata cfgs c2 m2 h2 hm2) hname hcat
    rw [hc] at h4
    cases h4

/-- Witness for C7: pkgA mapped to MEDIA by a vendor config and to MAPS by
a system config in the same batch fails and leaves the store untouched. -/
theorem update_fails_on_cross_config_category_conflict_witness :
    applyUpdate initialState [conflictVendorConfig, conflictSystemConfig]
      = (initialState, false) :=
  update_fails_on_cross_config_category_conflict initialState
    [conflictVendorConfig, conflictSystemConfig] conflictVendorConfig conflictSystemConfig
    (toPackageMetadata "pkgA" ApplicationCategoryType.media)
    (toPackageMetadata "pkgA" ApplicationCategoryType.maps)
    (by decide) (by decide) (by decide) (by decide) rfl (by decide)

/- ===================== C8 ===================== -/

/-- C8: across two successive successful updates whose Vendor configs
supply prefix sets, the stored vendor package prefixes afterwards are the
union of the previously stored prefixes and the prefixes supplied by both
updates, and the accessor returns that union. -/
theorem vendor_prefixes_accumulate (s s1 s2 : IoOveruseConfigsState)
    (c1 c2 : ResourceOveruseConfiguration)
    (hv1 : c1.componentType = ComponentType.vendor)
    (hv2 : c2.componentType = ComponentType.vendor)
    (h1 : update s [c1] = Except.ok s1) (h2 : update s1 [c2] = Except.ok s2) :
    ∀ p, p ∈ vendorPackagePrefixesOf s2 ↔
      p ∈ vendorPackagePrefixesOf s ∨ p ∈ c1.vendorPackagePrefixes ∨
        p ∈ c2.vendorPackagePrefixes := by
  obtain ⟨_, hsec1, _, _, hs1⟩ := update_ok_inv s [c1] s1 h1
  obtain ⟨_, hsec2, _, _, hs2⟩ := update_ok_inv s1 [c2] s2 h2
  have hio1 : ∃ io, getIoOveruseConfiguration c1 = some io := by
    have hany := List.any_eq_false.mp hsec1 c1 (by simp)
    cases hgi : getIoOveruseConfiguration c1 with
    | none => rw [hgi] at hany; simp at hany
    | some io => exact ⟨io, rfl⟩
  have hio2 : ∃ io, getIoOveruseConfiguration c2 = some io := by
    have hany := List.any_eq_false.mp hsec2 c2 (by simp)
    cases hgi : getIoOveruseConfiguration c2 with
    | none => rw [hgi] at hany; simp at hany
    | some io => exact ⟨io, rfl⟩
  rcases hio1 with ⟨io1, hio1⟩
  rcases hio2 with ⟨io2, hio2⟩
  have hpre1 : s1.vendorPackagePrefixes
      = addPrefixes s.vendorPackagePrefixes c1.vendorPackagePrefixes := by
    rw [hs1]
    simp [applyConfig, hio1, hv1]
  have hpre2 : s2.vendorPackagePrefixes
      = addPrefixes s1.vendorPackagePrefixes c2.vendorPackagePrefixes := by
    rw [hs2]
    simp [applyConfig, hio2, hv2]
  intro p
  unfold vendorPackagePrefixesOf
  rw [hpre2, mem_addPrefixes, hpre1, mem_addPrefixes]
  tauto

/-- Witness for C8: after the sample vendor update and a second vendor
update with a different prefix, the stored prefixes are exactly the union
of the two supplied sets. -/
theorem vendor_prefixes_accumulate_witness :
    "vendorPkg" ∈ vendorPackagePrefixesOf
        (applyUpdate (applyUpdate initialState [sampleUpdateVendorConfig]).1
          [vendorPrefixConfigB]).1 ↔
      "vendorPkg" ∈ vendorPackagePrefixesOf initialState ∨
      "vendorPkg" ∈ sampleUpdateVendorConfig.vendorPackagePrefixes ∨
      "vendorPkg" ∈ vendorPrefixConfigB.vendorPackagePrefixes :=
  vendor_prefixes_accumulate initialState
    (applyUpdate initialState [sampleUpdateVendorConfig]).1
    (applyUpdate (applyUpdate initialState [sampleUpdateVendorConfig]).1
      [vendorPrefixConfigB]).1
    sampleUpdateVendorConfig vendorPrefixConfigB rfl rfl (by rfl) (by rfl) "vendorPkg"

/- ===================== C9 ===================== -/

/-- C9: a second registration of an identity already present in its
role bucket returns AlreadyExists and leaves the registry unchanged, and
unregistering an identity that is not present returns success as an
idempotent no-op. -/
theorem registry_duplicate_and_idempotent (s : RegistryState) (cid mid monId : Int)
    (t : TimeoutLength) :
    ((∃ e ∈ s.clients, e.clientId = cid ∧ e.timeout = t) →
      registerClient cid t s = (RegStatus.alreadyExists, s)) ∧
    ((∃ m ∈ s.mediators, m.1 = mid) →
      registerMediator mid s = (RegStatus.alreadyExists, s)) ∧
    ((∀ e ∈ s.clients, e.clientId ≠ cid) → unregisterClient cid s = (RegStatus.ok, s)) ∧
    ((∀ m ∈ s.mediators, m.1 ≠ mid) → unregisterMediator mid s = (RegStatus.ok, s)) ∧
    (s.monitor ≠ some monId → unregisterMonitor monId s = (RegStatus.ok, s)) := by
  refine ⟨?_, ?_, ?_, ?_, ?_⟩
  · rintro ⟨e, he, hid, _⟩
    unfold registerClient
    have hany : (s.clients.any (fun c => decide (c.clientId = cid))) = true := by
      rw [List.any_eq_true]
      exact ⟨e, he, by simp [hid]⟩
    simp [hany]
  · rintro ⟨m, hm, hid⟩
    unfold registerMediator
    have hany : (s.mediators.any (fun m2 => decide (m2.1 = mid))) = true := by
      rw [List.any_eq_true]
      exact ⟨m, hm, by simp [hid]⟩
    simp [hany]
  · intro hall
    unfold unregisterClient
    have hfil : s.clients.filter (fun c => !decide (c.clientId = cid)) = s.clients := by
      rw [List.filter_eq_self]
      intro a ha
      simp [hall a ha]
    simp [hfil]
  · intro hall
    unfold unregisterMediator
    have hfil : s.mediators.filter (fun m2 => !decide (m2.1 = mid)) = s.mediators := by
      rw [List.filter_eq_self]
      intro a ha
      simp [hall a ha]
    simp [hfil]
  · intro hne
    unfold unregisterMonitor
    simp [hne]

/-- Witness for C9: re-registering client 7 in its tier returns
AlreadyExists and the registry is unchanged. -/
theorem registry_duplicate_and_idempotent_witness :
    registerClient 7 TimeoutLength.critical
        ⟨[⟨7, TimeoutLength.critical, 1⟩], [(9, 2)], some 3, 2⟩
      = (RegStatus.alreadyExists,
         ⟨[⟨7, TimeoutLength.critical, 1⟩], [(9, 2)], some 3, 2⟩) :=
  (registry_duplicate_and_idempotent
      ⟨[⟨7, TimeoutLength.critical, 1⟩], [(9, 2)], some 3, 2⟩ 7 9 5
      TimeoutLength.critical).1 (by decide)

/- ===================== C10 ===================== -/

/-- C10: a config listing two package-specific entries for the same package
or two category-specific entries for the same category still updates
successfully and the stored map keeps exactly one entry per key — the last
occurrence in the input list; duplicate system-wide alert thresholds with
the same duration keep the first occurrence instead. -/
theorem duplicate_entries_last_or_first_wins (s : IoOveruseConfigsState)
    (c : ResourceOveruseConfiguration) (io : IoOveruseConfiguration)
    (hio : getIoOveruseConfiguration c = some io)
    (hv : validThresholds c = true)
    (hnc : hasCategoryCollision c.packageMetadata = false) :
    ∃ s2, update s [c] = Except.ok s2 ∧
      (c.componentType = ComponentType.system →
        ∃ cc, s2.systemConfig = some cc ∧
          (∀ k, lookupAssoc cc.packageSpecificThresholds k =
            (io.packageSpecificThresholds.reverse.find? (fun u => decide (u.name = k))).map
              PerStateIoOveruseThreshold.perStateWriteBytes) ∧
          (cc.packageSpecificThresholds.map Prod.fst).Nodup ∧
          (∀ d, s2.alertThresholds.find? (fun u => u.durationInSeconds == d)
            = io.systemWideThresholds.find? (fun u => u.durationInSeconds == d)) ∧
          s2.alertThresholds.Pairwise
            (fun a b => a.durationInSeconds ≠ b.durationInSeconds)) ∧
      (c.componentType = ComponentType.vendor →
        ∃ cc, s2.vendorConfig = some cc ∧
          (∀ k, lookupAssoc cc.packageSpecificThresholds k =
            (io.packageSpecificThresholds.reverse.find? (fun u => decide (u.name = k))).map
              PerStateIoOveruseThreshold.perStateWriteBytes) ∧
          (cc.packageSpecificThresholds.map Prod.fst).Nodup ∧
          (∀ cat, lookupAssoc s2.categorySpecificThresholds cat =
            (io.categorySpecificThresholds.reverse.find?
              (fun u => decide (categoryKey u = some cat))).map
              PerStateIoOveruseThreshold.perStateWriteBytes) ∧
          (s2.categorySpecificThresholds.map Prod.fst).Nodup) := by
  refine ⟨applyConfig s c, ?_, ?_, ?_⟩
  · rw [update_single_ok s c io hio hv hnc]
  · intro hct
    refine ⟨componentSpecificOf c io, ?_, ?_, ?_, ?_, ?_⟩
    · simp [applyConfig, hio, hct]
    · intro k
      unfold componentSpecificOf
      exact lookupAssoc_buildThresholdMap io.packageSpecificThresholds k
    · unfold componentSpecificOf
      exact keys_buildThresholdMap_nodup io.packageSpecificThresholds
    · intro d
      have halert : (applyConfig s c).alertThresholds
          = buildAlertSet io.systemWideThresholds := by
        simp [applyConfig, hio, hct]
      rw [halert]
      exact find?_buildAlertSet io.systemWideThresholds d
    · have halert : (applyConfig s c).alertThresholds
          = buildAlertSet io.systemWideThresholds := by
        simp [applyConfig, hio, hct]
      rw [halert]
      exact pairwise_buildAlertSet io.systemWideThresholds
  · intro hct
    refine ⟨componentSpecificOf c io, ?_, ?_, ?_, ?_, ?_⟩
    · simp [applyConfig, hio, hct]
    · intro k
      unfold componentSpecificOf
      exact lookupAssoc_buildThresholdMap io.packageSpecificThresholds k
    · unfold componentSpecificOf
      exact keys_buildThresholdMap_nodup io.packageSpecificThresholds
    · intro cat
      have hcatm : (applyConfig s c).categorySpecificThresholds
          = buildCategoryMap io.categorySpecificThresholds := by
        simp [applyConfig, hio, hct]
      rw [hcatm]
      exact lookupAssoc_buildCategoryMap io.categorySpecificThresholds cat
    · have hcatm : (applyConfig s c).categorySpecificThresholds
          = buildCategoryMap io.categorySpecificThresholds := by
        simp [applyConfig, hio, hct]
      rw [hcatm]
      exact keys_buildCategoryMap_nodup io.categorySpecificThresholds

/-- Witness for C10: the system config with duplicate systemPackageC
threshold entries and duplicate duration-6 alert thresholds. -/
theorem duplicate_entries_last_or_first_wins_witness :
    ∃ s2, update initialState [duplicateEntrySystemConfig] = Except.ok s2 ∧
      (duplicateEntrySystemConfig.componentType = ComponentType.system →
        ∃ cc, s2.systemConfig = some cc ∧
          (∀ k, lookupAssoc cc.packageSpecificThresholds k =
            (duplicateEntrySystemIo.packageSpecificThresholds.reverse.find?
              (fun u => decide (u.name = k))).map
              PerStateIoOveruseThreshold.perStateWriteBytes) ∧
          (cc.packageSpecificThresholds.map Prod.fst).Nodup ∧
          (∀ d, s2.alertThresholds.find? (fun u => u.durationInSeconds == d)
            = duplicateEntrySystemIo.systemWideThresholds.find?
                (fun u => u.durationInSeconds == d)) ∧
          s2.alertThresholds.Pairwise
            (fun a b => a.durationInSeconds ≠ b.durationInSeconds)) ∧
      (duplicateEntrySystemConfig.componentType = ComponentType.vendor →
        ∃ cc, s2.vendorConfig = some cc ∧
          (∀ k, lookupAssoc cc.packageSpecificThresholds k =
            (duplicateEntrySystemIo.packageSpecificThresholds.reverse.find?
              (fun u => decide (u.name = k))).map
              PerStateIoOveruseThreshold.perStateWriteBytes) ∧
          (cc.packageSpecificThresholds.map Prod.fst).Nodup ∧
          (∀ cat, lookupAssoc s2.categorySpecificThresholds cat =
            (duplicateEntrySystemIo.categorySpecificThresholds.reverse.find?
              (fun u => decide (categoryKey u = some cat))).map
              PerStateIoOveruseThreshold.perStateWriteBytes) ∧
          (s2.categorySpecificThresholds.map Prod.fst).Nodup) :=
  duplicate_entries_last_or_first_wins initialState duplicateEntrySystemConfig
    duplicateEntrySystemIo rfl rfl rfl
